import Mathlib

/-!
Shallow embedding of `src/streamlit_app.py` (Kite OHLCV Extractor).

The script drives a per-press "fetch run": for each uploaded symbol it
normalizes the symbol, looks up an instrument token in the cached NSE
instrument table, calls the historical-data endpoint, buffers result rows,
and periodically flushes the buffer to an append-mode CSV file on disk.

Modelling conventions:
* the external API (`kite.historical_data`) is an oracle `Env.hist`: a call
  either returns a list of bars (`Except.ok`) or raises (`Except.error e`,
  where `e` stands for `str(exception)`);
* `time.time()` values are integers: `Env.t0` is the value read before the
  loop, `Env.now i` the value read in iteration `i` (line 238);
* the on-disk CSV is `Option FileState`: `none` means the file does not
  exist; each `to_csv(mode="a", header=h)` call appends one chunk
  `(h, rows)`; pandas creates the file on the first append;
* OHLCV cell values are abstracted to `Int` (their numeric identity plays
  no role in any claim); `dict.get` results are `Option Int`.
-/

namespace KiteApp

/-- One row of the cached NSE instrument table (`load_instruments`). -/
structure Instrument where
  tradingsymbol : String
  instrument_token : Int
deriving DecidableEq, Repr

/-- One bar returned by `kite.historical_data`; fields are read with
`row.get(...)`, which may yield `None`, hence `Option`. -/
structure Bar where
  date : Option Int
  open_ : Option Int
  high : Option Int
  low : Option Int
  close : Option Int
  volume : Option Int
deriving DecidableEq, Repr

/-- One dict appended to `rows_buffer` (lines 184-235). -/
structure Row where
  symbol : String
  date : Option Int
  open_ : Option Int
  high : Option Int
  low : Option Int
  close : Option Int
  volume : Option Int
  error : Option String
deriving DecidableEq, Repr

/-- The on-disk CSV file: the list of chunks appended by
`to_csv(mode="a", header=h)` calls, each remembering whether it wrote the
header line. -/
structure FileState where
  chunks : List (Bool × List Row)
deriving DecidableEq, Repr

/-- The data rows present in the file, in order. -/
def FileState.rows (f : FileState) : List Row :=
  (f.chunks.map Prod.snd).flatten

/-- Rows on disk; a nonexistent file holds no rows. -/
def rowsOnDisk : Option FileState → List Row
  | none => []
  | some f => f.rows

/-- Header lines present in the file, one flag per appended chunk. -/
def headerFlags : Option FileState → List Bool
  | none => []
  | some f => f.chunks.map Prod.fst

/-- Lookup `get_token` (lines 72-77): filter the instrument table on
`tradingsymbol == symbol`, return `None` if no row matches, else the
`instrument_token` of the first matching row. -/
def get_token (instruments : List Instrument) (symbol : String) : Option Int :=
  match instruments.find? (fun r => r.tradingsymbol == symbol) with
  | none => none
  | some r => some r.instrument_token

/-- Python truthiness of `token` at line 182 (`if not token:`):
`None` is falsy, and so is the integer `0`. -/
def pyFalsyToken : Option Int → Bool
  | none => true
  | some t => t == 0

/-- Flush `flush_buffer_to_csv` (lines 95-109): on an empty buffer return the flag
unchanged and touch nothing; otherwise append the buffer to the file (header
written iff the flag is still false, file created if absent) and return
`true`. -/
def flush_buffer_to_csv (buffer : List Row) (file : Option FileState)
    (file_written_flag : Bool) : Option FileState × Bool :=
  if buffer.isEmpty then (file, file_written_flag)
  else
    let f := file.getD ⟨[]⟩
    (some ⟨f.chunks ++ [(!file_written_flag, buffer)]⟩, true)

/-- Normalization `str(sym).strip().upper()` (line 177).  The uploaded cell is modelled as
already a string (`str` is then the identity); `strip` drops whitespace from
both ends and `upper` uppercases every character, both written on the
character list of the string. -/
def normalizeSym (raw : String) : String :=
  ⟨((raw.data.dropWhile Char.isWhitespace).reverse.dropWhile
      Char.isWhitespace).reverse.map Char.toUpper⟩

/-- The "Token not found" error row (lines 184-195). -/
def tokenNotFoundRow (sym : String) : Row :=
  { symbol := sym, date := none, open_ := none, high := none, low := none,
    close := none, volume := none, error := some "Token not found" }

/-- The error row built in the `except` branch (lines 224-235);
`e` is `str(exception)`. -/
def exceptionRow (sym : String) (e : String) : Row :=
  { symbol := sym, date := none, open_ := none, high := none, low := none,
    close := none, volume := none, error := some e }

/-- One data row built from a bar (lines 210-221). -/
def dataRow (sym : String) (b : Bar) : Row :=
  { symbol := sym, date := b.date, open_ := b.open_, high := b.high,
    low := b.low, close := b.close, volume := b.volume, error := none }

/-- The run environment: the cached instrument table, the historical-data
oracle, and the clock readings. -/
structure Env where
  instruments : List Instrument
  hist : Int → Except String (List Bar)
  t0 : Int
  now : Nat → Int

/-- Lines 180-235 for one (already normalized) symbol: the rows appended to
the buffer, paired with the list of tokens actually passed to
`kite.historical_data` (so the second component records the endpoint calls
made for this symbol, in order). -/
def fetchSymbol (env : Env) (sym : String) : List Row × List Int :=
  let token := get_token env.instruments sym
  if pyFalsyToken token then ([tokenNotFoundRow sym], [])
  else
    let t := token.getD 0
    match env.hist t with
    | Except.ok data => (data.map (dataRow sym), [t])
    | Except.error e => ([exceptionRow sym e], [t])

/-- Constant `flush_interval = 30` (line 172). -/
def flush_interval : Int := 30

/-- The flush condition (lines 240-244). -/
def should_flush (time_since_last_flush : Int) (buffer_len : Nat)
    (i total_symbols : Nat) : Bool :=
  decide (time_since_last_flush ≥ flush_interval)
    || decide (buffer_len ≥ 5000)
    || (i == total_symbols - 1)

/-- The loop-carried state of the fetch loop (lines 170-173 initialize it). -/
structure LoopState where
  rows_buffer : List Row
  last_flush_time : Int
  file_written : Bool
  file : Option FileState

/-- One iteration of the fetch loop (lines 176-257) for the `i`-th raw
symbol. -/
def processSymbol (env : Env) (total_symbols i : Nat) (raw : String)
    (s : LoopState) : LoopState :=
  let sym := normalizeSym raw
  let rows_buffer := s.rows_buffer ++ (fetchSymbol env sym).1
  let now := env.now i
  let time_since_last_flush := now - s.last_flush_time
  if should_flush time_since_last_flush rows_buffer.length i total_symbols then
    let fr := flush_buffer_to_csv rows_buffer s.file s.file_written
    { rows_buffer := [], last_flush_time := now, file_written := fr.2,
      file := fr.1 }
  else
    { s with rows_buffer := rows_buffer }

/-- The fetch loop from iteration `i` on, over the remaining raw symbols. -/
def runFrom (env : Env) (total_symbols : Nat) :
    Nat → List String → LoopState → LoopState
  | _, [], s => s
  | i, raw :: rest, s =>
      runFrom env total_symbols (i + 1) rest (processSymbol env total_symbols i raw s)

/-- The loop state right after the button press (lines 170-173): empty
buffer, `last_flush_time = time.time()`, `file_written = False`, and the
disk file as left by the deletion step. -/
def initLoopState (env : Env) (disk : Option FileState) : LoopState :=
  { rows_buffer := [], last_flush_time := env.t0, file_written := false,
    file := disk }

/-- The whole fetch loop over the uploaded symbol list. -/
def runLoop (env : Env) (symbols : List String) (disk : Option FileState) :
    LoopState :=
  runFrom env symbols.length 0 symbols (initLoopState env disk)

/-- All rows produced during a run, in order: for each raw symbol, the rows
`fetchSymbol` appends for its normalized form. -/
def producedRows (env : Env) (symbols : List String) : List Row :=
  (symbols.map (fun raw => (fetchSymbol env (normalizeSym raw)).1)).flatten

/-- The per-session state relevant here: `st.session_state["autosave_path"]`. -/
structure SessionState where
  autosave_path : Option String
deriving DecidableEq, Repr

/-- Session helper `init_autosave_file` (lines 83-92): choose
`ohlcv_autosave_{timestamp}.csv` only when no path is stored in the session
yet, otherwise keep the stored path.  (`Path(...).resolve()` is modelled as
the identity on names.) -/
def init_autosave_file (sess : SessionState) (timestamp : String) :
    SessionState × String :=
  match sess.autosave_path with
  | some p => (sess, p)
  | none =>
      let autosave_name := "ohlcv_autosave_" ++ timestamp ++ ".csv"
      ({ autosave_path := some autosave_name }, autosave_name)

/-- One press of the Fetch Data button (lines 151-259): fix the autosave
path, delete the existing file when present (`unlinkOk` tells whether the
`unlink` call succeeded; on failure the old file survives), then run the
fetch loop.  Returns the session, the path, and the final loop state. -/
def fetch_press (env : Env) (sess : SessionState) (timestamp : String)
    (symbols : List String) (old : Option FileState) (unlinkOk : Bool) :
    SessionState × String × LoopState :=
  let ip := init_autosave_file sess timestamp
  let disk0 : Option FileState :=
    match old with
    | none => none
    | some f => if unlinkOk then none else some f
  (ip.1, ip.2, runLoop env symbols disk0)

/-- Lines 262-285: after the run, the file is read back for preview and the
download button is offered exactly when `autosave_file.exists()`; otherwise
an error message is shown. -/
def download_offered (env : Env) (sess : SessionState) (timestamp : String)
    (symbols : List String) (old : Option FileState) (unlinkOk : Bool) : Bool :=
  ((fetch_press env sess timestamp symbols old unlinkOk).2.2.file).isSome

/-- Header-placement invariant of the loop state, relative to the header
flags `base` the file carried when the run started: either no buffered rows
have been written yet (flag still `false`, file untouched), or the file has
gained one chunk with a header followed only by header-less chunks. -/
def headerInv (base : List Bool) (s : LoopState) : Prop :=
  (s.file_written = false ∧ headerFlags s.file = base)
  ∨ (s.file_written = true
      ∧ ∃ m, headerFlags s.file = base ++ true :: List.replicate m false)

/-- A sample bar for concrete runs. -/
def bar1 : Bar :=
  { date := some 1, open_ := some 2, high := some 3, low := some 4,
    close := some 5, volume := some 6 }

/-- Concrete environment: one listed symbol with one bar of data; the clock
jumps past the flush interval at every iteration. -/
def envA : Env :=
  { instruments := [{ tradingsymbol := "TCS", instrument_token := 11536642 }],
    hist := fun _ => Except.ok [bar1],
    t0 := 0,
    now := fun _ => 100 }

/-- Concrete environment whose only listed symbol carries instrument token
`0` (a falsy token for line 182). -/
def envZ : Env :=
  { instruments := [{ tradingsymbol := "ZERO", instrument_token := 0 }],
    hist := fun _ => Except.ok [bar1],
    t0 := 0,
    now := fun _ => 0 }

/-- Concrete environment whose historical-data call succeeds but returns no
bars at all. -/
def envE : Env :=
  { instruments := [{ tradingsymbol := "EMPTY", instrument_token := 7 }],
    hist := fun _ => Except.ok [],
    t0 := 0,
    now := fun _ => 0 }

/-- Concrete environment whose historical-data call always raises. -/
def envB : Env :=
  { instruments := [{ tradingsymbol := "INFY", instrument_token := 5 }],
    hist := fun _ => Except.error "boom",
    t0 := 0,
    now := fun _ => 0 }

/-! ## Helper lemmas -/

/-- Flushing appends exactly the buffer to the rows on disk (trivially so
for an empty buffer, which writes nothing). -/
theorem rowsOnDisk_flush (b : List Row) (f : Option FileState) (fw : Bool) :
    rowsOnDisk (flush_buffer_to_csv b f fw).1 = rowsOnDisk f ++ b := by
  unfold flush_buffer_to_csv
  by_cases hb : b.isEmpty
  · rw [List.isEmpty_iff] at hb
    simp [hb]
  · cases f <;> simp [hb, rowsOnDisk, FileState.rows]

/-- A nonexistent file holds no rows. -/
theorem rowsOnDisk_none : rowsOnDisk none = [] := rfl

/-- A flush with a nonempty buffer appends one chunk, whose header flag is
the negation of the `file_written` flag. -/
theorem headerFlags_flush (b : List Row) (f : Option FileState) (fw : Bool)
    (hb : b ≠ []) :
    headerFlags (flush_buffer_to_csv b f fw).1 = headerFlags f ++ [!fw] := by
  unfold flush_buffer_to_csv
  rw [if_neg (by simpa [List.isEmpty_iff] using hb)]
  cases f <;> simp [headerFlags]

/-- A flush with a nonempty buffer reports the file as written. -/
theorem flush_snd_nonempty (b : List Row) (f : Option FileState) (fw : Bool)
    (hb : b ≠ []) : (flush_buffer_to_csv b f fw).2 = true := by
  unfold flush_buffer_to_csv
  rw [if_neg (by simpa [List.isEmpty_iff] using hb)]

/-- A flush with an empty buffer does nothing. -/
theorem flush_empty (f : Option FileState) (fw : Bool) :
    flush_buffer_to_csv [] f fw = (f, fw) := by
  simp [flush_buffer_to_csv]

/-- Unfolding of `processSymbol` when the flush condition holds. -/
theorem processSymbol_flush_eq (env : Env) (total i : Nat) (raw : String)
    (s : LoopState)
    (h : should_flush (env.now i - s.last_flush_time)
        (s.rows_buffer ++ (fetchSymbol env (normalizeSym raw)).1).length i total
        = true) :
    processSymbol env total i raw s =
      { rows_buffer := [],
        last_flush_time := env.now i,
        file_written := (flush_buffer_to_csv
            (s.rows_buffer ++ (fetchSymbol env (normalizeSym raw)).1)
            s.file s.file_written).2,
        file := (flush_buffer_to_csv
            (s.rows_buffer ++ (fetchSymbol env (normalizeSym raw)).1)
            s.file s.file_written).1 } := by
  have h2 : should_flush (env.now i - s.last_flush_time)
      (s.rows_buffer.length + (fetchSymbol env (normalizeSym raw)).1.length)
      i total = true := by
    simpa using h
  simp [processSymbol, h2]

/-- Unfolding of `processSymbol` when the flush condition fails. -/
theorem processSymbol_buffer_eq (env : Env) (total i : Nat) (raw : String)
    (s : LoopState)
    (h : should_flush (env.now i - s.last_flush_time)
        (s.rows_buffer ++ (fetchSymbol env (normalizeSym raw)).1).length i total
        = false) :
    processSymbol env total i raw s =
      { s with rows_buffer :=
          s.rows_buffer ++ (fetchSymbol env (normalizeSym raw)).1 } := by
  have h2 : should_flush (env.now i - s.last_flush_time)
      (s.rows_buffer.length + (fetchSymbol env (normalizeSym raw)).1.length)
      i total = false := by
    simpa using h
  simp [processSymbol, h2]

/-- One iteration conserves rows: disk plus buffer afterwards equals disk
plus buffer before, extended by the rows produced for the symbol. -/
theorem processSymbol_rows (env : Env) (total i : Nat) (raw : String)
    (s : LoopState) :
    rowsOnDisk (processSymbol env total i raw s).file
        ++ (processSymbol env total i raw s).rows_buffer
      = rowsOnDisk s.file ++ s.rows_buffer
          ++ (fetchSymbol env (normalizeSym raw)).1 := by
  cases hf : should_flush (env.now i - s.last_flush_time)
      (s.rows_buffer ++ (fetchSymbol env (normalizeSym raw)).1).length i total
  · rw [processSymbol_buffer_eq env total i raw s hf]
    simp
  · rw [processSymbol_flush_eq env total i raw s hf]
    simp [rowsOnDisk_flush]

/-- The loop conserves rows: final disk plus buffer is the initial disk plus
buffer extended by all rows produced for the remaining symbols. -/
theorem runFrom_rows (env : Env) (total : Nat) :
    ∀ (rest : List String) (i : Nat) (s : LoopState),
      rowsOnDisk (runFrom env total i rest s).file
          ++ (runFrom env total i rest s).rows_buffer
        = rowsOnDisk s.file ++ s.rows_buffer ++ producedRows env rest := by
  intro rest
  induction rest with
  | nil =>
      intro i s
      simp [runFrom, producedRows]
  | cons raw rest ih =>
      intro i s
      have h1 := ih (i + 1) (processSymbol env total i raw s)
      have h2 := processSymbol_rows env total i raw s
      simp only [runFrom] at *
      rw [h1, h2]
      simp [producedRows]

/-- The iteration on the last symbol always flushes, so the loop ends with
an empty buffer whenever there is at least one symbol. -/
theorem runFrom_buffer_empty (env : Env) (total : Nat) :
    ∀ (rest : List String) (i : Nat) (s : LoopState), rest ≠ [] →
      i + rest.length = total → (runFrom env total i rest s).rows_buffer = [] := by
  intro rest
  induction rest with
  | nil =>
      intro i s h
      exact absurd rfl h
  | cons raw rest ih =>
      intro i s _ htot
      cases rest with
      | nil =>
          have hi : i = total - 1 := by
            simp at htot
            omega
          have hf : should_flush (env.now i - s.last_flush_time)
              (s.rows_buffer ++ (fetchSymbol env (normalizeSym raw)).1).length
              i total = true := by
            simp [should_flush, hi]
          simp only [runFrom]
          rw [processSymbol_flush_eq env total i raw s hf]
      | cons raw2 rest2 =>
          simp only [runFrom]
          refine ih (i + 1) (processSymbol env total i raw s) (by simp) ?_
          simp at htot ⊢
          omega

/-- One iteration preserves the header-placement invariant. -/
theorem headerInv_processSymbol (base : List Bool) (env : Env) (total i : Nat)
    (raw : String) (s : LoopState) (h : headerInv base s) :
    headerInv base (processSymbol env total i raw s) := by
  cases hf : should_flush (env.now i - s.last_flush_time)
      (s.rows_buffer ++ (fetchSymbol env (normalizeSym raw)).1).length i total
  · rw [processSymbol_buffer_eq env total i raw s hf]
    exact h
  · rw [processSymbol_flush_eq env total i raw s hf]
    by_cases hb : s.rows_buffer ++ (fetchSymbol env (normalizeSym raw)).1 = []
    · rw [hb, flush_empty]
      exact h
    · rcases h with ⟨hfw, hflags⟩ | ⟨hfw, m, hflags⟩
      · right
        constructor
        · exact flush_snd_nonempty _ _ _ hb
        · refine ⟨0, ?_⟩
          rw [headerFlags_flush _ _ _ hb, hflags, hfw]
          simp
      · right
        constructor
        · exact flush_snd_nonempty _ _ _ hb
        · refine ⟨m + 1, ?_⟩
          rw [headerFlags_flush _ _ _ hb, hflags, hfw]
          simp [List.append_assoc]
          rw [← List.replicate_succ', List.replicate_succ]

/-- The loop preserves the header-placement invariant. -/
theorem headerInv_runFrom (base : List Bool) (env : Env) (total : Nat) :
    ∀ (rest : List String) (i : Nat) (s : LoopState),
      headerInv base s → headerInv base (runFrom env total i rest s) := by
  intro rest
  induction rest with
  | nil =>
      intro i s h
      exact h
  | cons raw rest ih =>
      intro i s h
      exact ih (i + 1) _ (headerInv_processSymbol base env total i raw s h)

/-- One iteration preserves "if the file exists it holds at least one row". -/
theorem file_some_rows_processSymbol (env : Env) (total i : Nat) (raw : String)
    (s : LoopState) (h : s.file.isSome = true → rowsOnDisk s.file ≠ []) :
    (processSymbol env total i raw s).file.isSome = true →
      rowsOnDisk (processSymbol env total i raw s).file ≠ [] := by
  cases hf : should_flush (env.now i - s.last_flush_time)
      (s.rows_buffer ++ (fetchSymbol env (normalizeSym raw)).1).length i total
  · rw [processSymbol_buffer_eq env total i raw s hf]
    exact h
  · rw [processSymbol_flush_eq env total i raw s hf]
    by_cases hb : s.rows_buffer ++ (fetchSymbol env (normalizeSym raw)).1 = []
    · rw [hb, flush_empty]
      exact h
    · intro _
      rw [rowsOnDisk_flush]
      simp [hb]

/-- The loop preserves "if the file exists it holds at least one row". -/
theorem file_some_rows_runFrom (env : Env) (total : Nat) :
    ∀ (rest : List String) (i : Nat) (s : LoopState),
      (s.file.isSome = true → rowsOnDisk s.file ≠ []) →
      (runFrom env total i rest s).file.isSome = true →
        rowsOnDisk (runFrom env total i rest s).file ≠ [] := by
  intro rest
  induction rest with
  | nil =>
      intro i s h
      exact h
  | cons raw rest ih =>
      intro i s h
      exact ih (i + 1) _ (file_some_rows_processSymbol env total i raw s h)

/-- Every row `fetchSymbol` produces carries the symbol it was produced
for. -/
theorem fetchSymbol_symbol (env : Env) (sym : String) :
    ∀ r ∈ (fetchSymbol env sym).1, r.symbol = sym := by
  intro r hr
  by_cases ht : pyFalsyToken (get_token env.instruments sym) = true
  · simp [fetchSymbol, ht] at hr
    rw [hr]
    rfl
  · cases hh : env.hist ((get_token env.instruments sym).getD 0) with
    | ok data =>
        simp [fetchSymbol, ht, hh] at hr
        obtain ⟨b, _, hb⟩ := hr
        rw [← hb]
        rfl
    | error e =>
        simp [fetchSymbol, ht, hh] at hr
        rw [hr]
        rfl

/-- Evaluation of `get_token` on a table whose first match is `r`, after a prefix with no
match, returns `r`'s token. -/
theorem get_token_first (symbol : String) :
    ∀ (pre : List Instrument) (r : Instrument) (suf : List Instrument),
      r.tradingsymbol = symbol → (∀ q ∈ pre, q.tradingsymbol ≠ symbol) →
      get_token (pre ++ r :: suf) symbol = some r.instrument_token := by
  intro pre
  induction pre with
  | nil =>
      intro r suf hr _
      simp [get_token, List.find?_cons_of_pos, hr]
  | cons q pre ih =>
      intro r suf hr hpre
      have hq : (q.tradingsymbol == symbol) = false := by
        simp
        exact hpre q (by simp)
      have := ih r suf hr (fun p hp => hpre p (by simp [hp]))
      simpa [get_token, List.find?_cons_of_neg, hq] using this

/-- Evaluation of `getD` on a replicated `false` list with default `false` is `false`. -/
theorem getD_replicate_false (m i : Nat) :
    (List.replicate m false).getD i false = false := by
  induction m generalizing i with
  | zero => simp
  | succ m ih => cases i <;> simp [List.replicate_succ, ih]

/-! ## Claim theorems -/

/-- C1: during a fetch run, after processing each symbol the row buffer is
flushed to disk if and only if the elapsed time since the last flush is at
least 30 seconds, or the buffer (with this symbol's rows included) holds at
least 5000 rows, or the symbol just processed is the last of the uploaded
list. -/
theorem flush_gate_iff_time_size_or_last (env : Env) (total i : Nat)
    (raw : String) (s : LoopState) :
    processSymbol env total i raw s =
      if 30 ≤ env.now i - s.last_flush_time
          ∨ 5000 ≤ (s.rows_buffer ++ (fetchSymbol env (normalizeSym raw)).1).length
          ∨ i = total - 1 then
        { rows_buffer := [],
          last_flush_time := env.now i,
          file_written := (flush_buffer_to_csv
              (s.rows_buffer ++ (fetchSymbol env (normalizeSym raw)).1)
              s.file s.file_written).2,
          file := (flush_buffer_to_csv
              (s.rows_buffer ++ (fetchSymbol env (normalizeSym raw)).1)
              s.file s.file_written).1 }
      else
        { s with rows_buffer :=
            s.rows_buffer ++ (fetchSymbol env (normalizeSym raw)).1 } := by
  have hb : should_flush (env.now i - s.last_flush_time)
      (s.rows_buffer ++ (fetchSymbol env (normalizeSym raw)).1).length i total
        = true
      ↔ (30 ≤ env.now i - s.last_flush_time
          ∨ 5000 ≤ (s.rows_buffer ++ (fetchSymbol env (normalizeSym raw)).1).length
          ∨ i = total - 1) := by
    simp [should_flush, flush_interval, ge_iff_le, or_assoc]
  by_cases h : 30 ≤ env.now i - s.last_flush_time
      ∨ 5000 ≤ (s.rows_buffer ++ (fetchSymbol env (normalizeSym raw)).1).length
      ∨ i = total - 1
  · rw [if_pos h]
    exact processSymbol_flush_eq env total i raw s (hb.mpr h)
  · rw [if_neg h]
    refine processSymbol_buffer_eq env total i raw s ?_
    rw [Bool.eq_false_iff]
    intro hc
    exact h (hb.mp hc)

/-- C2: within a single fetch run, among the chunks the run appends to the
autosave file only the first carries the CSV column header; every later
flush appends its rows without a header. -/
theorem header_written_only_by_first_flush (env : Env) (symbols : List String)
    (disk : Option FileState) (k : Nat)
    (hk : k < (headerFlags (runLoop env symbols disk).file).length)
    (hbase : (headerFlags disk).length ≤ k) :
    (headerFlags (runLoop env symbols disk).file).getD k false
      = decide (k = (headerFlags disk).length) := by
  have hinv : headerInv (headerFlags disk) (runLoop env symbols disk) :=
    headerInv_runFrom (headerFlags disk) env symbols.length symbols 0
      (initLoopState env disk) (Or.inl ⟨rfl, rfl⟩)
  rcases hinv with ⟨_, hflags⟩ | ⟨_, m, hflags⟩
  · rw [hflags] at hk
    omega
  · rw [hflags] at hk ⊢
    rw [List.getD_append_right _ _ _ _ hbase]
    rcases Nat.eq_or_lt_of_le hbase with heq | hlt
    · rw [← heq]
      simp
    · obtain ⟨j, hj⟩ : ∃ j, k - (headerFlags disk).length = j + 1 :=
        ⟨k - (headerFlags disk).length - 1, by omega⟩
      rw [hj, List.getD_cons_succ, getD_replicate_false]
      have hne : k ≠ (headerFlags disk).length := by omega
      simp [hne]

/-- C3: a flush with a nonempty buffer appends exactly the buffered rows at
the end of the on-disk file, leaving the previous contents unchanged; a
flush with an empty buffer writes nothing and leaves the header-written
flag unchanged; and whenever the loop flushes, the in-memory buffer is
empty immediately afterwards. -/
theorem flush_appends_and_clears :
    (∀ (buffer : List Row) (file : Option FileState) (fw : Bool),
        (buffer ≠ [] →
          rowsOnDisk (flush_buffer_to_csv buffer file fw).1
            = rowsOnDisk file ++ buffer)
        ∧ (buffer = [] → flush_buffer_to_csv buffer file fw = (file, fw)))
    ∧ ∀ (env : Env) (total i : Nat) (raw : String) (s : LoopState),
        should_flush (env.now i - s.last_flush_time)
            (s.rows_buffer ++ (fetchSymbol env (normalizeSym raw)).1).length
            i total = true →
          (processSymbol env total i raw s).rows_buffer = [] := by
  constructor
  · intro buffer file fw
    constructor
    · intro _
      exact rowsOnDisk_flush buffer file fw
    · intro hb
      rw [hb]
      exact flush_empty file fw
  · intro env total i raw s h
    rw [processSymbol_flush_eq env total i raw s h]

/-- C4: for every non-empty uploaded symbol list the fetch loop ends with an
empty in-memory buffer, the end-of-list condition having forced a final
flush, so the autosave file then holds (after any pre-existing rows)
exactly the rows produced during the run, data rows and error rows alike. -/
theorem run_ends_empty_buffer_all_rows_on_disk (env : Env)
    (symbols : List String) (disk : Option FileState) (h : symbols ≠ []) :
    (runLoop env symbols disk).rows_buffer = []
    ∧ rowsOnDisk (runLoop env symbols disk).file
        = rowsOnDisk disk ++ producedRows env symbols := by
  have h1 : (runLoop env symbols disk).rows_buffer = [] :=
    runFrom_buffer_empty env symbols.length symbols 0 (initLoopState env disk)
      h (by simp)
  refine ⟨h1, ?_⟩
  have h2 := runFrom_rows env symbols.length symbols 0 (initLoopState env disk)
  have hrl : runFrom env symbols.length 0 symbols (initLoopState env disk)
      = runLoop env symbols disk := rfl
  rw [hrl, h1] at h2
  simpa [initLoopState] using h2

/-- C8: `get_token` returns `None` when no row of the cached instrument
table has the given tradingsymbol, and otherwise returns the
`instrument_token` of the first matching row. -/
theorem get_token_none_or_first_match (instruments : List Instrument)
    (symbol : String) :
    ((∀ q ∈ instruments, q.tradingsymbol ≠ symbol) →
        get_token instruments symbol = none)
    ∧ ∀ (pre : List Instrument) (r : Instrument) (suf : List Instrument),
        instruments = pre ++ r :: suf → r.tradingsymbol = symbol →
        (∀ q ∈ pre, q.tradingsymbol ≠ symbol) →
        get_token instruments symbol = some r.instrument_token := by
  constructor
  · intro h
    have hfind : instruments.find? (fun q => q.tradingsymbol == symbol) = none := by
      rw [List.find?_eq_none]
      intro q hq
      simpa using h q hq
    simp [get_token, hfind]
  · intro pre r suf hins hr hpre
    rw [hins]
    exact get_token_first symbol pre r suf hr hpre

/-- C5: if the historical-data call for a symbol raises, exactly one row is
appended to the buffer for that symbol, its date/open/high/low/close/volume
fields all `None` and its error field the string form of the exception; and
the loop then continues with the next symbol instead of aborting the run. -/
theorem exception_yields_single_error_row (env : Env) (sym : String) (t : Int)
    (e : String) (htok : get_token env.instruments sym = some t) (ht : t ≠ 0)
    (hh : env.hist t = Except.error e) :
    (fetchSymbol env sym).1
      = [{ symbol := sym, date := none, open_ := none, high := none,
           low := none, close := none, volume := none, error := some e }]
    ∧ ∀ (total i : Nat) (raw : String) (rest : List String) (s : LoopState),
        runFrom env total i (raw :: rest) s
          = runFrom env total (i + 1) rest (processSymbol env total i raw s) := by
  constructor
  · have hfalsy : pyFalsyToken (get_token env.instruments sym) = false := by
      rw [htok]
      simpa [pyFalsyToken] using ht
    have hgd : (get_token env.instruments sym).getD 0 = t := by
      rw [htok]
      rfl
    simp [fetchSymbol, hfalsy, hgd, hh, exceptionRow]
  · intro total i raw rest s
    rfl

/-- C5 instantiated: in `envB` the call for "INFY" raises "boom", one
all-`None` error row results, and the loop step goes on to the next
symbol. -/
theorem exception_yields_single_error_row_witness :
    (fetchSymbol envB "INFY").1
      = [{ symbol := "INFY", date := none, open_ := none, high := none,
           low := none, close := none, volume := none, error := some "boom" }]
    ∧ runFrom envB 2 0 ["INFY", "X"] (initLoopState envB none)
        = runFrom envB 2 1 ["X"]
            (processSymbol envB 2 0 "INFY" (initLoopState envB none)) := by
  have h := exception_yields_single_error_row envB "INFY" 5 "boom"
    (by decide) (by decide) rfl
  exact ⟨h.1, h.2 2 0 "INFY" ["X"] (initLoopState envB none)⟩

/-- C6 counterexample: in `envZ` the symbol "ZERO" is listed with instrument
token `0`, so its token lookup succeeds, yet the historical-data endpoint is
not called for it — line 182's `if not token:` treats the integer `0` as
falsy — refuting "called exactly once per symbol whose instrument token is
found". -/
theorem hist_call_for_found_token_cex :
    ¬ ∀ (env : Env) (sym : String),
        (get_token env.instruments sym).isSome = true →
        (fetchSymbol env sym).2.length = 1 := by
  intro hclaim
  have h := hclaim envZ "ZERO" (by decide)
  revert h
  decide

/-- C6 amended: symbols are processed one at a time in list order; the
historical-data endpoint is called exactly once for a symbol whose token
lookup yields a nonzero token, and not at all when the lookup yields no row
or the Python-falsy token `0`, in which case a single "Token not found" row
is appended instead. -/
theorem hist_called_once_iff_token_truthy (env : Env) (sym : String) :
    (pyFalsyToken (get_token env.instruments sym) = true →
        (fetchSymbol env sym).2 = []
        ∧ (fetchSymbol env sym).1 = [tokenNotFoundRow sym])
    ∧ (∀ t : Int, get_token env.instruments sym = some t → t ≠ 0 →
        (fetchSymbol env sym).2 = [t])
    ∧ ∀ (total i : Nat) (raw : String) (rest : List String) (s : LoopState),
        runFrom env total i (raw :: rest) s
          = runFrom env total (i + 1) rest (processSymbol env total i raw s) := by
  refine ⟨?_, ?_, ?_⟩
  · intro h
    constructor <;> simp [fetchSymbol, h]
  · intro t htok ht
    have hfalsy : pyFalsyToken (get_token env.instruments sym) = false := by
      rw [htok]
      simpa [pyFalsyToken] using ht
    have hgd : (get_token env.instruments sym).getD 0 = t := by
      rw [htok]
      rfl
    cases hh : env.hist t with
    | ok data => simp [fetchSymbol, hfalsy, hgd, hh]
    | error e => simp [fetchSymbol, hfalsy, hgd, hh]
  · intro total i raw rest s
    rfl

/-- C6 amended, instantiated: for the zero-token symbol no call is made and
a "Token not found" row results; for "TCS" exactly one call is made with its
token; and the loop step processes symbols head first. -/
theorem hist_called_once_iff_token_truthy_witness :
    ((fetchSymbol envZ "ZERO").2 = []
      ∧ (fetchSymbol envZ "ZERO").1 = [tokenNotFoundRow "ZERO"])
    ∧ (fetchSymbol envA "TCS").2 = [11536642]
    ∧ runFrom envA 1 0 ["TCS"] (initLoopState envA none)
        = runFrom envA 1 1 [] (processSymbol envA 1 0 "TCS" (initLoopState envA none)) :=
  ⟨(hist_called_once_iff_token_truthy envZ "ZERO").1 (by decide),
   (hist_called_once_iff_token_truthy envA "TCS").2.1 11536642 (by decide) (by decide),
   (hist_called_once_iff_token_truthy envA "TCS").2.2 1 0 "TCS" [] (initLoopState envA none)⟩

/-- C7 counterexample: a completed fetch run need not offer a preview or
download: in `envE` the symbol "EMPTY" is found but its historical-data call
returns no bars, so no row is ever written, the autosave file never comes
into existence, and the completion stage takes the error branch instead. -/
theorem download_offered_not_universal_cex :
    ¬ ∀ (env : Env) (sess : SessionState) (ts : String) (symbols : List String)
        (old : Option FileState) (uok : Bool), symbols ≠ [] →
        download_offered env sess ts symbols old uok = true := by
  intro hclaim
  have h := hclaim envE ⟨none⟩ "t" ["EMPTY"] none true (by simp)
  revert h
  decide

/-- C7 amended: after a fetch run that started with the autosave file absent
or successfully deleted, the completion stage reloads the file for preview
and offers the download exactly when at least one row was produced during
the run; otherwise the file does not exist and an error message is shown
instead. -/
theorem download_offered_iff_rows_produced (env : Env) (sess : SessionState)
    (ts : String) (symbols : List String) (old : Option FileState) (uok : Bool)
    (h : old = none ∨ uok = true) :
    download_offered env sess ts symbols old uok = true
      ↔ producedRows env symbols ≠ [] := by
  have hdisk : (fetch_press env sess ts symbols old uok).2.2
      = runLoop env symbols none := by
    rcases h with h | h
    · simp [fetch_press, h]
    · cases old with
      | none => simp [fetch_press]
      | some f => simp [fetch_press, h]
  unfold download_offered
  rw [hdisk]
  have hcons := runFrom_rows env symbols.length symbols 0 (initLoopState env none)
  have hrl : runFrom env symbols.length 0 symbols (initLoopState env none)
      = runLoop env symbols none := rfl
  rw [hrl] at hcons
  simp only [initLoopState, rowsOnDisk, List.append_nil, List.nil_append] at hcons
  constructor
  · intro hsome
    have hne : rowsOnDisk (runLoop env symbols none).file ≠ [] :=
      file_some_rows_runFrom env symbols.length symbols 0 (initLoopState env none)
        (by intro hc; simp [initLoopState] at hc) hsome
    intro hprod
    rw [hprod] at hcons
    rcases List.append_eq_nil.mp hcons with ⟨h1, _⟩
    exact hne h1
  · intro hprod
    cases hfile : (runLoop env symbols none).file with
    | some f => rfl
    | none =>
        exfalso
        cases symbols with
        | nil => exact hprod rfl
        | cons a rest =>
            have hbuf := runFrom_buffer_empty env (a :: rest).length (a :: rest) 0
              (initLoopState env none) (by simp) (by simp)
            have hrl2 : runFrom env (a :: rest).length 0 (a :: rest)
                (initLoopState env none) = runLoop env (a :: rest) none := rfl
            rw [hrl2] at hbuf
            rw [hfile, hbuf] at hcons
            exact hprod (by simpa [rowsOnDisk] using hcons.symm)

/-- C7 amended, instantiated: a run that produces a row does offer the
download. -/
theorem download_offered_iff_rows_produced_witness :
    download_offered envA ⟨none⟩ "t" ["TCS"] none true = true := by
  have h := download_offered_iff_rows_produced envA ⟨none⟩ "t" ["TCS"] none true
    (Or.inl rfl)
  exact h.mpr (by decide)

/-- C9: each uploaded cell is normalized (string-converted, stripped,
uppercased) before use — the loop body depends on the raw cell only through
its normalized form — every row `fetchSymbol` produces for a normalized
symbol records that normalized form in its `symbol` field, and every row the
run leaves on disk or in the buffer either predates the run or carries the
normalized form of some uploaded cell. -/
theorem output_rows_symbol_normalized (env : Env) (symbols : List String)
    (disk : Option FileState) :
    (∀ (total i : Nat) (raw raw2 : String) (s : LoopState),
        normalizeSym raw = normalizeSym raw2 →
        processSymbol env total i raw s = processSymbol env total i raw2 s)
    ∧ (∀ (raw : String), ∀ r ∈ (fetchSymbol env (normalizeSym raw)).1,
        r.symbol = normalizeSym raw)
    ∧ ∀ r ∈ rowsOnDisk (runLoop env symbols disk).file
          ++ (runLoop env symbols disk).rows_buffer,
        r ∈ rowsOnDisk disk ∨ ∃ raw ∈ symbols, r.symbol = normalizeSym raw := by
  refine ⟨?_, ?_, ?_⟩
  · intro total i raw raw2 s h
    simp [processSymbol, h]
  · intro raw r hr
    exact fetchSymbol_symbol env (normalizeSym raw) r hr
  · intro r hr
    have hcons := runFrom_rows env symbols.length symbols 0 (initLoopState env disk)
    have hrl : runFrom env symbols.length 0 symbols (initLoopState env disk)
        = runLoop env symbols disk := rfl
    rw [hrl] at hcons
    simp only [initLoopState, List.append_nil] at hcons
    rw [hcons] at hr
    rcases List.mem_append.mp hr with h | h
    · exact Or.inl h
    · right
      unfold producedRows at h
      rw [List.mem_flatten] at h
      obtain ⟨l, hl, hmem⟩ := h
      rw [List.mem_map] at hl
      obtain ⟨raw, hraw, hfl⟩ := hl
      rw [← hfl] at hmem
      exact ⟨raw, hraw, fetchSymbol_symbol env (normalizeSym raw) r hmem⟩

/-- C9 instantiated: the cell " tcs " is looked up and recorded as "TCS". -/
theorem output_rows_symbol_normalized_witness :
    processSymbol envA 1 0 " tcs " (initLoopState envA none)
        = processSymbol envA 1 0 "TCS" (initLoopState envA none)
    ∧ (dataRow "TCS" bar1).symbol = normalizeSym " tcs "
    ∧ (dataRow "TCS" bar1 ∈ rowsOnDisk none
        ∨ ∃ raw ∈ [" tcs "], (dataRow "TCS" bar1).symbol = normalizeSym raw) :=
  ⟨(output_rows_symbol_normalized envA [" tcs "] none).1 1 0 " tcs " "TCS"
      (initLoopState envA none) (by decide),
   (output_rows_symbol_normalized envA [" tcs "] none).2.1 " tcs "
      (dataRow "TCS" bar1) (by decide),
   (output_rows_symbol_normalized envA [" tcs "] none).2.2
      (dataRow "TCS" bar1) (by decide)⟩

/-- C10: the autosave path is chosen once per session and reused across
reruns; a press of the button that finds an existing file and whose unlink
succeeds runs the loop against an absent file; and after such a press every
row of the on-disk output file was produced by that run. -/
theorem autosave_path_stable_and_clean_run (env : Env) (sess : SessionState)
    (ts ts2 : String) (symbols : List String) (old : Option FileState) :
    ((init_autosave_file sess ts).1.autosave_path
        = some (init_autosave_file sess ts).2
      ∧ init_autosave_file (init_autosave_file sess ts).1 ts2
          = ((init_autosave_file sess ts).1, (init_autosave_file sess ts).2))
    ∧ (∀ f : FileState, old = some f →
        (fetch_press env sess ts symbols old true).2.2
          = runLoop env symbols none)
    ∧ ∀ r ∈ rowsOnDisk (fetch_press env sess ts symbols old true).2.2.file,
        r ∈ producedRows env symbols := by
  refine ⟨?_, ?_, ?_⟩
  · cases hs : sess.autosave_path with
    | some p => simp [init_autosave_file, hs]
    | none => simp [init_autosave_file, hs]
  · intro f hf
    simp [fetch_press, hf]
  · intro r hr
    have hdisk : (fetch_press env sess ts symbols old true).2.2
        = runLoop env symbols none := by
      cases old with
      | none => simp [fetch_press]
      | some f => simp [fetch_press]
    rw [hdisk] at hr
    have hcons := runFrom_rows env symbols.length symbols 0 (initLoopState env none)
    have hrl : runFrom env symbols.length 0 symbols (initLoopState env none)
        = runLoop env symbols none := rfl
    rw [hrl] at hcons
    simp only [initLoopState, rowsOnDisk_none, List.append_nil, List.nil_append] at hcons
    have hmem : r ∈ rowsOnDisk (runLoop env symbols none).file
        ++ (runLoop env symbols none).rows_buffer := List.mem_append_left _ hr
    rw [hcons] at hmem
    exact hmem

/-- C10 instantiated: a pre-existing file is deleted and the run's output
holds only this run's rows. -/
theorem autosave_path_stable_and_clean_run_witness :
    (fetch_press envA ⟨none⟩ "ts" ["TCS"]
        (some ⟨[(true, [tokenNotFoundRow "OLD"])]⟩) true).2.2
      = runLoop envA ["TCS"] none
    ∧ dataRow "TCS" bar1 ∈ producedRows envA ["TCS"] :=
  ⟨(autosave_path_stable_and_clean_run envA ⟨none⟩ "ts" "ts2" ["TCS"]
      (some ⟨[(true, [tokenNotFoundRow "OLD"])]⟩)).2.1
      ⟨[(true, [tokenNotFoundRow "OLD"])]⟩ rfl,
   (autosave_path_stable_and_clean_run envA ⟨none⟩ "ts" "ts2" ["TCS"]
      (some ⟨[(true, [tokenNotFoundRow "OLD"])]⟩)).2.2
      (dataRow "TCS" bar1) (by decide)⟩

/-- C2 instantiated: in a run with two flushes, the second appended chunk
carries no header. -/
theorem header_written_only_by_first_flush_witness :
    (headerFlags (runLoop envA ["TCS", "X"] none).file).getD 1 false = false := by
  have h := header_written_only_by_first_flush envA ["TCS", "X"] none 1
    (by decide) (by decide)
  simpa [headerFlags] using h

/-- C3 instantiated: a nonempty flush appends the buffer, an empty flush is
a no-op, and a flushing iteration clears the buffer. -/
theorem flush_appends_and_clears_witness :
    rowsOnDisk (flush_buffer_to_csv [tokenNotFoundRow "A"] none false).1
        = rowsOnDisk none ++ [tokenNotFoundRow "A"]
    ∧ flush_buffer_to_csv [] none false = (none, false)
    ∧ (processSymbol envA 1 0 "TCS" (initLoopState envA none)).rows_buffer = [] :=
  ⟨(flush_appends_and_clears.1 [tokenNotFoundRow "A"] none false).1 (by simp),
   (flush_appends_and_clears.1 [] none false).2 rfl,
   flush_appends_and_clears.2 envA 1 0 "TCS" (initLoopState envA none) (by decide)⟩

/-- C4 instantiated: a one-symbol run ends with an empty buffer and all its
rows on disk. -/
theorem run_ends_empty_buffer_all_rows_on_disk_witness :
    (runLoop envA ["TCS"] none).rows_buffer = []
    ∧ rowsOnDisk (runLoop envA ["TCS"] none).file
        = rowsOnDisk none ++ producedRows envA ["TCS"] :=
  run_ends_empty_buffer_all_rows_on_disk envA ["TCS"] none (by simp)

/-- C8 instantiated: a missing symbol yields `none`, a duplicated symbol
yields the token of its first row. -/
theorem get_token_none_or_first_match_witness :
    get_token [⟨"A", 1⟩, ⟨"B", 2⟩, ⟨"B", 3⟩] "C" = none
    ∧ get_token [⟨"A", 1⟩, ⟨"B", 2⟩, ⟨"B", 3⟩] "B" = some 2 :=
  ⟨(get_token_none_or_first_match [⟨"A", 1⟩, ⟨"B", 2⟩, ⟨"B", 3⟩] "C").1 (by decide),
   (get_token_none_or_first_match [⟨"A", 1⟩, ⟨"B", 2⟩, ⟨"B", 3⟩] "B").2
      [⟨"A", 1⟩] ⟨"B", 2⟩ [⟨"B", 3⟩] rfl rfl (by decide)⟩

end KiteApp
